import Mathlib

/-!
# Verification of the HEC batching/delivery engine

Shallow embedding of `http_event_collector.py`: the event batcher
(`sendEvent`), the retry dispatcher (`flushBatch`), enrichment, JSON-style
serialization and the wire framing, together with proofs of the spec's
claims about them.

Serialized strings are modelled as `List Char` (Python `len` on `str`
counts characters). Machine responses observed by each delivery attempt
are supplied by an oracle `Nat → AttemptResult`, the attempt index being
the loop variable of `flushBatch`'s `for attempt in range(max_retries+1)`.
-/

namespace HEC

/-- Serialized text, modelled as a list of characters. -/
abbrev Str := List Char

/-- A JSON-style value held in an event field: either a serializable
string or a value that `json.dumps` cannot encode. -/
inductive Val where
  | str (s : Str)
  | bad
deriving DecidableEq, Repr

/-- An event: a Python dict modelled as an insertion-ordered association
list from field names to values. -/
abbrev Event := List (Str × Val)

/-- `k in payload` — membership test of a key in a dict. -/
def hasKey (e : Event) (k : Str) : Bool :=
  e.any (fun p => p.1 = k)

/-- `payload[k]` — first value bound to `k`, if any. -/
def lookupKey (e : Event) (k : Str) : Option Val :=
  match e with
  | [] => none
  | p :: ps => if p.1 = k then some p.2 else lookupKey ps k

/-- `payload[k] = v` — Python dict assignment: update in place when the
key exists (keeping its position), append otherwise. -/
def dictSet (e : Event) (k : Str) (v : Val) : Event :=
  if hasKey e k then e.map (fun p => if p.1 = k then (k, v) else p)
  else e ++ [(k, v)]

/-- Immutable configuration of one `http_event_collector` instance. -/
structure Config where
  host : Str
  index : Str
  maxByteLength : Nat
  max_retries : Nat
  backoff_factor : ℚ
deriving DecidableEq, Repr

/-- Mutable state of one instance: the batch and the three metrics
counters. -/
structure State where
  batchEvents : List Str
  currentByteLength : Nat
  retry_count : Nat
  send_count : Nat
  error_count : Nat
deriving DecidableEq, Repr

/-- `DEFAULT_RETRY_STATUS_CODES` from the source. -/
def DEFAULT_RETRY_STATUS_CODES : List Nat := [429, 500, 502, 503, 504]

/-- What one delivery attempt (`self._session.post`) observes. -/
inductive AttemptResult where
  | status (code : Nat)
  | timeout
  | connError
  | unexpected
deriving DecidableEq, Repr

/-- Terminal outcome of `flushBatch`. -/
inductive FlushOutcome where
  | noop
  | success (code : Nat)
  | failure (code : Nat)
  | exhausted
  | raised
deriving DecidableEq, Repr

/-- Result of one `flushBatch` call: the post-state, the outcome, the
backoff waits performed (in seconds, in order) and the number of POST
attempts made. -/
structure FlushResult where
  state : State
  outcome : FlushOutcome
  waits : List ℚ
  attempts : Nat
deriving DecidableEq, Repr

/-- `wait_time = self.backoff_factor * (2 ** attempt)`. -/
def waitTime (cfg : Config) (attempt : Nat) : ℚ :=
  cfg.backoff_factor * 2 ^ attempt

/-- Clear the batch: `self.batchEvents = []; self.currentByteLength = 0`. -/
def clearBatch (s : State) : State :=
  { s with batchEvents := [], currentByteLength := 0 }

/-- The retry loop of `flushBatch`: `for attempt in range(max_retries+1)`,
with the exhaustion handling after the loop. `fuel` is the number of
remaining loop iterations; when it reaches 0 the loop has completed all
`max_retries + 1` attempts without a terminal outcome. -/
def flushLoop (cfg : Config) (oracle : Nat → AttemptResult)
    (event_count : Nat) :
    Nat → Nat → State → List ℚ → Nat → FlushResult
  | 0, _, s, waits, attempts =>
      { state := clearBatch { s with error_count := s.error_count + 1 },
        outcome := .exhausted, waits := waits, attempts := attempts }
  | fuel + 1, attempt, s, waits, attempts =>
      match oracle attempt with
      | .status code =>
          if code = 200 then
            { state := clearBatch
                { s with send_count := s.send_count + event_count },
              outcome := .success code, waits := waits,
              attempts := attempts + 1 }
          else if code ∈ DEFAULT_RETRY_STATUS_CODES then
            flushLoop cfg oracle event_count fuel (attempt + 1)
              { s with retry_count := s.retry_count + 1 }
              (waits ++ [waitTime cfg attempt]) (attempts + 1)
          else
            { state := clearBatch
                { s with error_count := s.error_count + 1 },
              outcome := .failure code, waits := waits,
              attempts := attempts + 1 }
      | .timeout =>
          flushLoop cfg oracle event_count fuel (attempt + 1)
            { s with retry_count := s.retry_count + 1 }
            (waits ++ [waitTime cfg attempt]) (attempts + 1)
      | .connError =>
          flushLoop cfg oracle event_count fuel (attempt + 1)
            { s with retry_count := s.retry_count + 1 }
            (waits ++ [waitTime cfg attempt]) (attempts + 1)
      | .unexpected =>
          { state := clearBatch
              { s with error_count := s.error_count + 1 },
            outcome := .raised, waits := waits, attempts := attempts + 1 }

/-- `flushBatch`: empty-batch no-op guard, then the retry loop over
`max_retries + 1` attempts. -/
def flushBatch (cfg : Config) (oracle : Nat → AttemptResult)
    (s : State) : FlushResult :=
  if s.batchEvents.isEmpty then
    { state := s, outcome := .noop, waits := [], attempts := 0 }
  else
    flushLoop cfg oracle s.batchEvents.length (cfg.max_retries + 1) 0 s [] 0

/-- `'\n'.join(self.batchEvents)` — the wire framing. -/
def joinBody : List Str → Str
  | [] => []
  | [s] => s
  | s :: ss => s ++ '\n' :: joinBody ss

/-- The request body transmitted for a state's batch (line
`payload = '\n'.join(self.batchEvents)`). -/
def requestBody (s : State) : Str :=
  joinBody s.batchEvents

/-! ## Serialization (`json.dumps`) -/

/-- JSON string escaping of one character (the escapes `json.dumps`
produces for the characters our model carries). -/
def escapeChar (c : Char) : List Char :=
  if c = '\\' then ['\\', '\\']
  else if c = '"' then ['\\', '"']
  else if c = '\n' then ['\\', 'n']
  else if c = '\t' then ['\\', 't']
  else if c = '\r' then ['\\', 'r']
  else [c]

/-- Escape a whole string. -/
def escapeStr : Str → Str
  | [] => []
  | c :: cs => escapeChar c ++ escapeStr cs

/-- A JSON string literal: `"..."` with the body escaped. -/
def quoteStr (s : Str) : Str :=
  '"' :: escapeStr s ++ ['"']

/-- Serialize one key/value pair as `"key": "value"`; fails when the
value is not encodable. -/
def serializePair (p : Str × Val) : Option Str :=
  match p.2 with
  | .str v => some (quoteStr p.1 ++ ':' :: ' ' :: quoteStr v)
  | .bad => none

/-- Serialize the pairs of an object, joined with `, `. -/
def serializePairs : Event → Option Str
  | [] => some []
  | [p] => serializePair p
  | p :: q :: ps => do
      let s ← serializePair p
      let rest ← serializePairs (q :: ps)
      pure (s ++ ',' :: ' ' :: rest)

/-- `json.dumps(payload)`: `{"k": "v", ...}`, or failure
(`SerializationError`) when some value cannot be encoded. -/
def serializeEvent (e : Event) : Option Str := do
  let ps ← serializePairs e
  pure ('{' :: ps ++ ['}'])

/-! ## Splitting and parsing the transmitted body back -/

/-- Split a string on newlines (Python `body.split('\n')`). -/
def splitNl : Str → List Str
  | [] => [[]]
  | c :: cs =>
      if c = '\n' then [] :: splitNl cs
      else
        match splitNl cs with
        | [] => [[c]]
        | s :: ss => (c :: s) :: ss

/-- Invert one escape code. -/
def unescapeChar (c : Char) : Option Char :=
  if c = '\\' then some '\\'
  else if c = '"' then some '"'
  else if c = 'n' then some '\n'
  else if c = 't' then some '\t'
  else if c = 'r' then some '\r'
  else none

/-- Parse the body of a JSON string literal up to its closing quote,
returning the decoded string and the rest of the input. -/
def parseStringBody : Str → Option (Str × Str)
  | [] => none
  | c :: cs =>
      if c = '"' then some ([], cs)
      else if c = '\\' then
        match cs with
        | [] => none
        | e :: cs' => do
            let d ← unescapeChar e
            let (s, rest) ← parseStringBody cs'
            pure (d :: s, rest)
      else do
        let (s, rest) ← parseStringBody cs
        pure (c :: s, rest)

/-- Parse a quoted JSON string literal. -/
def parseQuoted : Str → Option (Str × Str)
  | [] => none
  | c :: cs => if c = '"' then parseStringBody cs else none

/-- Parse one `"key": "value"` pair. -/
def parsePair (s : Str) : Option ((Str × Val) × Str) := do
  let (k, r1) ← parseQuoted s
  match r1 with
  | ':' :: ' ' :: r2 => do
      let (v, r3) ← parseQuoted r2
      pure ((k, Val.str v), r3)
  | _ => none

/-- Parse a nonempty `, `-separated pair list terminated by `}`. `fuel`
bounds the number of pairs. -/
def parsePairs : Nat → Str → Option (Event × Str)
  | 0, _ => none
  | fuel + 1, s => do
      let (p, r) ← parsePair s
      match r with
      | '}' :: r2 => pure ([p], r2)
      | ',' :: ' ' :: r2 => do
          let (ps, r3) ← parsePairs fuel r2
          pure (p :: ps, r3)
      | _ => none

/-- Parse a whole serialized event (`{...}` spanning the entire input). -/
def parseEvent (s : Str) : Option Event :=
  match s with
  | '{' :: rest =>
      if rest = ['}'] then some []
      else
        match parsePairs rest.length rest with
        | some (ps, []) => some ps
        | _ => none
  | _ => none

/-! ## Enrichment (`sendEvent`, lines 137-148) -/

/-- `str(int(time.time()))`: decimal digits of `n`, most significant
first. `fuel` bounds the division chain. -/
def natToCharsCore : Nat → Nat → List Char → List Char
  | 0, _, acc => acc
  | fuel + 1, n, acc =>
      let d := Char.ofNat (48 + n % 10)
      if n < 10 then d :: acc
      else natToCharsCore fuel (n / 10) (d :: acc)

/-- Decimal representation of a natural number as characters. -/
def natToChars (n : Nat) : Str :=
  natToCharsCore (n + 1) n []

/-- The field names touched by enrichment. -/
def hostKey : Str := ['h', 'o', 's', 't']

/-- The `index` field name. -/
def indexKey : Str := ['i', 'n', 'd', 'e', 'x']

/-- The `time` field name. -/
def timeKey : Str := ['t', 'i', 'm', 'e']

/-- `if 'host' not in payload: payload['host'] = self.host`. -/
def enrichHost (cfg : Config) (payload : Event) : Event :=
  if hasKey payload hostKey then payload
  else dictSet payload hostKey (.str cfg.host)

/-- `if 'index' not in payload and self.index: payload['index'] = self.index`. -/
def enrichIndex (cfg : Config) (payload : Event) : Event :=
  if ¬ hasKey payload indexKey ∧ cfg.index ≠ [] then
    dictSet payload indexKey (.str cfg.index)
  else payload

/-- The event-time block: `if eventtime: payload['time'] = eventtime`,
`elif 'time' not in payload: payload['time'] = str(int(time.time()))`. -/
def enrichTime (now : Nat) (payload : Event) (eventtime : Str) : Event :=
  if eventtime ≠ [] then dictSet payload timeKey (.str eventtime)
  else if hasKey payload timeKey then payload
  else dictSet payload timeKey (.str (natToChars now))

/-- Metadata enrichment performed by `sendEvent` before serialization:
default host, configured index, and event time, in the source's order.
`now` is the value of `int(time.time())`; `eventtime` is the optional
explicit time (the empty string when not given, matching the
`eventtime=""` default and the truthiness test `if eventtime:`). -/
def enrich (cfg : Config) (now : Nat) (payload : Event)
    (eventtime : Str) : Event :=
  enrichTime now (enrichIndex cfg (enrichHost cfg payload)) eventtime

/-! ## `sendEvent` -/

/-- How a `sendEvent` call terminates. -/
inductive SendStatus where
  | ok
  | serializationError
  | flushRaised
deriving DecidableEq, Repr

/-- Result of one `sendEvent` call: the post-state, the (mutated) caller
payload, how the call terminated, and how many `flushBatch` calls it
made. -/
structure SendOut where
  state : State
  payload : Event
  status : SendStatus
  flushCount : Nat
deriving DecidableEq, Repr

/-- `sendEvent(payload, eventtime)`: enrich the caller's dict in place,
serialize it, flush first when the byte budget would be exceeded, then
append. A serialization failure raises with nothing appended; a flush
that raises propagates with nothing appended. -/
def sendEvent (cfg : Config) (oracle : Nat → AttemptResult) (now : Nat)
    (payload : Event) (eventtime : Str) (s : State) : SendOut :=
  match serializeEvent (enrich cfg now payload eventtime) with
  | none =>
      { state := s, payload := enrich cfg now payload eventtime,
        status := .serializationError, flushCount := 0 }
  | some payloadString =>
      if s.currentByteLength + payloadString.length
          > cfg.maxByteLength then
        if (flushBatch cfg oracle s).outcome = .raised then
          { state := (flushBatch cfg oracle s).state,
            payload := enrich cfg now payload eventtime,
            status := .flushRaised, flushCount := 1 }
        else
          { state :=
              { (flushBatch cfg oracle s).state with
                batchEvents :=
                  (flushBatch cfg oracle s).state.batchEvents
                    ++ [payloadString],
                currentByteLength :=
                  (flushBatch cfg oracle s).state.currentByteLength
                    + payloadString.length },
            payload := enrich cfg now payload eventtime,
            status := .ok, flushCount := 1 }
      else
        { state :=
            { s with
              batchEvents := s.batchEvents ++ [payloadString],
              currentByteLength :=
                s.currentByteLength + payloadString.length },
          payload := enrich cfg now payload eventtime,
          status := .ok, flushCount := 0 }

/-! ## Basic lemmas about the retry loop -/

/-- An attempt result the loop retries on: a status in the retryable set,
or a transport failure. -/
def retryableResult : AttemptResult → Bool
  | .status code => code ≠ 200 && code ∈ DEFAULT_RETRY_STATUS_CODES
  | .timeout => true
  | .connError => true
  | .unexpected => false

/-- Every exit of the retry loop leaves the batch empty with the byte
counter at zero. -/
theorem flushLoop_clears (cfg : Config) (oracle : Nat → AttemptResult)
    (n : Nat) : ∀ (fuel attempt : Nat) (s : State) (waits : List ℚ)
    (att : Nat),
    (flushLoop cfg oracle n fuel attempt s waits att).state.batchEvents
      = [] ∧
    (flushLoop cfg oracle n fuel attempt s waits
      att).state.currentByteLength = 0
  | 0, _, s, waits, att => by simp [flushLoop, clearBatch]
  | fuel + 1, attempt, s, waits, att => by
    match h : oracle attempt with
    | .status code =>
        simp only [flushLoop, h]
        split_ifs with h1 h2
        · simp [clearBatch]
        · exact flushLoop_clears cfg oracle n fuel (attempt + 1) _ _ _
        · simp [clearBatch]
    | .timeout =>
        simp only [flushLoop, h]
        exact flushLoop_clears cfg oracle n fuel (attempt + 1) _ _ _
    | .connError =>
        simp only [flushLoop, h]
        exact flushLoop_clears cfg oracle n fuel (attempt + 1) _ _ _
    | .unexpected => simp [flushLoop, h, clearBatch]

/-- A retryable observation makes the loop recurse, charging one retry,
one wait and one attempt. -/
theorem flushLoop_retry_step (cfg : Config) (oracle : Nat → AttemptResult)
    (n fuel attempt : Nat) (s : State) (waits : List ℚ) (att : Nat)
    (h : retryableResult (oracle attempt) = true) :
    flushLoop cfg oracle n (fuel + 1) attempt s waits att =
      flushLoop cfg oracle n fuel (attempt + 1)
        { s with retry_count := s.retry_count + 1 }
        (waits ++ [waitTime cfg attempt]) (att + 1) := by
  match ho : oracle attempt with
  | .status code =>
      have h' : code ≠ 200 ∧ code ∈ DEFAULT_RETRY_STATUS_CODES := by
        rw [ho] at h
        simpa [retryableResult] using h
      simp only [flushLoop, ho]
      rw [if_neg h'.1, if_pos h'.2]
  | .timeout => simp only [flushLoop, ho]
  | .connError => simp only [flushLoop, ho]
  | .unexpected => rw [ho] at h; simp [retryableResult] at h

/-- Peeling the first index off a block of wait times. -/
theorem waitMapShift (cfg : Config) (attempt fuel : Nat) :
    (List.range (fuel + 1)).map (fun i => waitTime cfg (attempt + i)) =
      waitTime cfg attempt ::
        (List.range fuel).map (fun i => waitTime cfg (attempt + 1 + i)) := by
  rw [List.range_succ_eq_map, List.map_cons, List.map_map]
  congr 1
  simp only [Function.comp_def]
  simp only [List.map_inj_left]
  intro a _
  congr 1
  omega

/-- If every attempt the loop will make observes a retryable result, the
loop exhausts its fuel: one retry and one wait per attempt, then the
exhaustion handling fires. -/
theorem flushLoop_all_retry (cfg : Config) (oracle : Nat → AttemptResult)
    (n : Nat) : ∀ (fuel attempt : Nat) (s : State) (waits : List ℚ)
    (att : Nat),
    (∀ i, i < fuel → retryableResult (oracle (attempt + i)) = true) →
    flushLoop cfg oracle n fuel attempt s waits att =
      { state := clearBatch
          { s with retry_count := s.retry_count + fuel,
                   error_count := s.error_count + 1 },
        outcome := .exhausted,
        waits := waits ++
          (List.range fuel).map (fun i => waitTime cfg (attempt + i)),
        attempts := att + fuel }
  | 0, attempt, s, waits, att, _ => by simp [flushLoop]
  | fuel + 1, attempt, s, waits, att, h => by
    rw [flushLoop_retry_step cfg oracle n fuel attempt s waits att
      (by simpa using h 0 (Nat.succ_pos fuel))]
    rw [flushLoop_all_retry cfg oracle n fuel (attempt + 1) _ _ _
      (fun i hi => by
        have := h (i + 1) (by omega)
        simpa [Nat.add_assoc, Nat.add_comm 1 i] using this)]
    have h1 : s.retry_count + 1 + fuel = s.retry_count + (fuel + 1) := by
      omega
    have h2 : att + 1 + fuel = att + (fuel + 1) := by omega
    simp [clearBatch, waitMapShift, h1, h2]

/-- If the first `k` attempts observe retryable results and attempt `k`
observes HTTP 200, the loop succeeds there: `k` retries and waits, then
the success handling. -/
theorem flushLoop_success_at (cfg : Config) (oracle : Nat → AttemptResult)
    (n : Nat) : ∀ (k fuel attempt : Nat) (s : State) (waits : List ℚ)
    (att : Nat),
    k < fuel →
    (∀ i, i < k → retryableResult (oracle (attempt + i)) = true) →
    oracle (attempt + k) = .status 200 →
    flushLoop cfg oracle n fuel attempt s waits att =
      { state := clearBatch
          { s with retry_count := s.retry_count + k,
                   send_count := s.send_count + n },
        outcome := .success 200,
        waits := waits ++
          (List.range k).map (fun i => waitTime cfg (attempt + i)),
        attempts := att + k + 1 }
  | 0, fuel, attempt, s, waits, att, hk, _, h200 => by
    match fuel, hk with
    | fuel + 1, _ =>
      have h200' : oracle attempt = .status 200 := by simpa using h200
      simp only [flushLoop, h200']
      simp [clearBatch]
  | k + 1, fuel, attempt, s, waits, att, hk, hpre, h200 => by
    match fuel, hk with
    | fuel + 1, hk =>
      rw [flushLoop_retry_step cfg oracle n fuel attempt s waits att
        (by simpa using hpre 0 (Nat.succ_pos k))]
      rw [flushLoop_success_at cfg oracle n k fuel (attempt + 1) _ _ _
        (by omega)
        (fun i hi => by
          have := hpre (i + 1) (by omega)
          simpa [Nat.add_assoc, Nat.add_comm 1 i] using this)
        (by rw [show attempt + 1 + k = attempt + (k + 1) by omega]; exact h200)]
      have h1 : s.retry_count + 1 + k = s.retry_count + (k + 1) := by omega
      have h2 : att + 1 + k + 1 = att + (k + 1) + 1 := by omega
      simp [clearBatch, waitMapShift, h1, h2]

/-- A non-retryable non-200 status terminates the loop at once: one
error, the batch cleared, no wait. -/
theorem flushLoop_failure_first (cfg : Config)
    (oracle : Nat → AttemptResult) (n fuel attempt : Nat) (s : State)
    (waits : List ℚ) (att : Nat) (code : Nat)
    (h : oracle attempt = .status code) (h200 : code ≠ 200)
    (hnr : code ∉ DEFAULT_RETRY_STATUS_CODES) :
    flushLoop cfg oracle n (fuel + 1) attempt s waits att =
      { state := clearBatch { s with error_count := s.error_count + 1 },
        outcome := .failure code, waits := waits, attempts := att + 1 } := by
  simp only [flushLoop, h]
  rw [if_neg h200, if_neg hnr]

/-- An unexpected failure terminates the loop at once: one error, the
batch cleared, the exception propagated (outcome `raised`), no wait. -/
theorem flushLoop_unexpected_first (cfg : Config)
    (oracle : Nat → AttemptResult) (n fuel attempt : Nat) (s : State)
    (waits : List ℚ) (att : Nat) (h : oracle attempt = .unexpected) :
    flushLoop cfg oracle n (fuel + 1) attempt s waits att =
      { state := clearBatch { s with error_count := s.error_count + 1 },
        outcome := .raised, waits := waits, attempts := att + 1 } := by
  simp only [flushLoop, h]

/-- Whenever the loop ends in `raised`, the error counter was bumped
exactly once relative to the entry state. -/
theorem flushLoop_raised_error (cfg : Config)
    (oracle : Nat → AttemptResult) (n : Nat) :
    ∀ (fuel attempt : Nat) (s : State) (waits : List ℚ) (att : Nat),
    (flushLoop cfg oracle n fuel attempt s waits att).outcome = .raised →
    (flushLoop cfg oracle n fuel attempt s waits att).state.error_count
      = s.error_count + 1
  | 0, _, s, waits, att => by simp [flushLoop]
  | fuel + 1, attempt, s, waits, att => by
    intro hr
    match h : oracle attempt with
    | .status code =>
        simp only [flushLoop, h] at hr ⊢
        split_ifs at hr ⊢ with h1 h2
        exact flushLoop_raised_error cfg oracle n fuel (attempt + 1)
          _ _ _ hr
    | .timeout =>
        simp only [flushLoop, h] at hr ⊢
        exact flushLoop_raised_error cfg oracle n fuel (attempt + 1) _ _ _ hr
    | .connError =>
        simp only [flushLoop, h] at hr ⊢
        exact flushLoop_raised_error cfg oracle n fuel (attempt + 1) _ _ _ hr
    | .unexpected => simp [flushLoop, h, clearBatch]

/-! ## `flushBatch`-level lemmas -/

/-- `flushBatch` on an empty batch is the source's early `return`. -/
theorem flushBatch_empty (cfg : Config) (oracle : Nat → AttemptResult)
    (s : State) (h : s.batchEvents = []) :
    flushBatch cfg oracle s =
      { state := s, outcome := .noop, waits := [], attempts := 0 } := by
  simp [flushBatch, h]

/-- `flushBatch` on a nonempty batch runs the retry loop from attempt 0
with fuel `max_retries + 1`. -/
theorem flushBatch_nonempty (cfg : Config) (oracle : Nat → AttemptResult)
    (s : State) (h : s.batchEvents ≠ []) :
    flushBatch cfg oracle s =
      flushLoop cfg oracle s.batchEvents.length (cfg.max_retries + 1)
        0 s [] 0 := by
  simp [flushBatch, h]

/-- After any `flushBatch`, the batch list is empty. -/
theorem flushBatch_batch_nil (cfg : Config) (oracle : Nat → AttemptResult)
    (s : State) : (flushBatch cfg oracle s).state.batchEvents = [] := by
  by_cases h : s.batchEvents = []
  · rw [flushBatch_empty cfg oracle s h]; exact h
  · rw [flushBatch_nonempty cfg oracle s h]
    exact (flushLoop_clears cfg oracle _ _ _ _ _ _).1

/-- The byte-counter invariant of the batch. -/
def byteInvariant (s : State) : Prop :=
  s.currentByteLength = (s.batchEvents.map List.length).sum

/-- `flushBatch` preserves the byte-counter invariant. -/
theorem flushBatch_byteInvariant (cfg : Config)
    (oracle : Nat → AttemptResult) (s : State) (h : byteInvariant s) :
    byteInvariant (flushBatch cfg oracle s).state := by
  by_cases he : s.batchEvents = []
  · rw [flushBatch_empty cfg oracle s he]; exact h
  · rw [flushBatch_nonempty cfg oracle s he]
    have := flushLoop_clears cfg oracle s.batchEvents.length
      (cfg.max_retries + 1) 0 s [] 0
    unfold byteInvariant
    rw [this.1, this.2]
    rfl

/-- Under the byte invariant, any `flushBatch` leaves the byte counter
at zero. -/
theorem flushBatch_byte_zero (cfg : Config)
    (oracle : Nat → AttemptResult) (s : State) (h : byteInvariant s) :
    (flushBatch cfg oracle s).state.currentByteLength = 0 := by
  have h2 := flushBatch_byteInvariant cfg oracle s h
  unfold byteInvariant at h2
  rw [flushBatch_batch_nil] at h2
  simpa using h2

/-! ## Dictionary lemmas -/

/-- Looking up a key absent from a prefix skips the prefix. -/
theorem lookupKey_append_right (e : Event) (k : Str) (l : Event)
    (h : hasKey e k = false) :
    lookupKey (e ++ l) k = lookupKey l k := by
  induction e with
  | nil => rfl
  | cons p ps ih =>
      simp only [hasKey, List.any_cons, Bool.or_eq_false_iff,
        decide_eq_false_iff_not] at h
      simp only [List.cons_append, lookupKey, if_neg h.1]
      exact ih (by simp [hasKey, h.2])

/-- Replacing every pair keyed `k` makes lookup of `k` find the new
value, provided the key occurs. -/
theorem lookupKey_replace (e : Event) (k : Str) (v : Val)
    (h : hasKey e k = true) :
    lookupKey (e.map (fun p => if p.1 = k then (k, v) else p)) k
      = some v := by
  induction e with
  | nil => simp [hasKey] at h
  | cons p ps ih =>
      by_cases hp : p.1 = k
      · simp [lookupKey, hp]
      · simp only [hasKey, List.any_cons, Bool.or_eq_true,
          decide_eq_true_eq] at h
        rcases h with h | h
        · exact absurd h hp
        · simp only [List.map_cons, if_neg hp, lookupKey, if_neg hp]
          exact ih h

/-- Replacing pairs keyed `k` leaves lookups of other keys unchanged. -/
theorem lookupKey_replace_ne (e : Event) (k k' : Str) (v : Val)
    (hkk : k' ≠ k) :
    lookupKey (e.map (fun p => if p.1 = k then (k, v) else p)) k'
      = lookupKey e k' := by
  induction e with
  | nil => rfl
  | cons p ps ih =>
      by_cases hp : p.1 = k
      · have h1 : ¬ ((k, v).1 = k') := fun hc => hkk hc.symm
        have h2 : ¬ (p.1 = k') := fun hc => hkk (hp.symm.trans hc).symm
        simp only [List.map_cons, if_pos hp, lookupKey, if_neg h1,
          if_neg h2]
        exact ih
      · simp only [List.map_cons, if_neg hp, lookupKey]
        by_cases hp' : p.1 = k'
        · simp [hp']
        · simp only [if_neg hp']
          exact ih

/-- Appending a singleton with a different key leaves lookups
unchanged. -/
theorem lookupKey_append_single_ne (e : Event) (k k' : Str) (v : Val)
    (hkk : k' ≠ k) :
    lookupKey (e ++ [(k, v)]) k' = lookupKey e k' := by
  induction e with
  | nil =>
      show lookupKey [(k, v)] k' = none
      simp only [lookupKey]
      rw [if_neg (show ¬ ((k, v).1 = k') from fun hc => hkk hc.symm)]
  | cons p ps ih =>
      simp only [List.cons_append, lookupKey]
      by_cases hp' : p.1 = k'
      · simp [hp']
      · simp only [if_neg hp']
        exact ih

/-- Dict assignment makes the assigned key look up the new value. -/
theorem lookupKey_dictSet_self (e : Event) (k : Str) (v : Val) :
    lookupKey (dictSet e k v) k = some v := by
  unfold dictSet
  split_ifs with h
  · exact lookupKey_replace e k v h
  · rw [lookupKey_append_right e k _ (by simpa using h)]
    simp [lookupKey]

/-- Dict assignment leaves other keys' lookups unchanged. -/
theorem lookupKey_dictSet_ne (e : Event) (k k' : Str) (v : Val)
    (hkk : k' ≠ k) :
    lookupKey (dictSet e k v) k' = lookupKey e k' := by
  unfold dictSet
  split_ifs with h
  · exact lookupKey_replace_ne e k k' v hkk
  · exact lookupKey_append_single_ne e k k' v hkk

/-- Replacing pairs keyed `k` leaves other keys' membership
unchanged. -/
theorem hasKey_replace_ne (e : Event) (k k' : Str) (v : Val) :
    hasKey (e.map (fun p => if p.1 = k then (k, v) else p)) k'
      = hasKey e k' := by
  induction e with
  | nil => rfl
  | cons p ps ih =>
      by_cases hp : p.1 = k
      · simp only [List.map_cons, if_pos hp, hasKey, List.any_cons]
        rw [hp]
        congr 1
      · simp only [List.map_cons, if_neg hp, hasKey, List.any_cons]
        congr 1

/-- Dict assignment leaves other keys' membership unchanged. -/
theorem hasKey_dictSet_ne (e : Event) (k k' : Str) (v : Val)
    (hkk : k' ≠ k) :
    hasKey (dictSet e k v) k' = hasKey e k' := by
  unfold dictSet
  split_ifs with h
  · exact hasKey_replace_ne e k k' v
  · have hk : ¬ (k = k') := fun hc => hkk hc.symm
    simp [hasKey, hk]

/-- A successful lookup implies membership. -/
theorem hasKey_of_lookupKey (e : Event) (k : Str) (v : Val)
    (h : lookupKey e k = some v) : hasKey e k = true := by
  induction e with
  | nil => simp [lookupKey] at h
  | cons p ps ih =>
      simp only [lookupKey] at h
      by_cases hp : p.1 = k
      · simp [hasKey, hp]
      · rw [if_neg hp] at h
        simp only [hasKey, List.any_cons, Bool.or_eq_true]
        exact Or.inr (ih h)

/-! ## Enrichment lemmas -/

/-- The time block never touches a key other than `time`. -/
theorem lookupKey_enrichTime_ne (now : Nat) (p : Event) (et : Str)
    (k : Str) (hk : k ≠ timeKey) :
    lookupKey (enrichTime now p et) k = lookupKey p k := by
  unfold enrichTime
  split_ifs <;>
    simp [lookupKey_dictSet_ne _ timeKey k _ hk]

/-- The index block never touches a key other than `index`. -/
theorem lookupKey_enrichIndex_ne (cfg : Config) (p : Event) (k : Str)
    (hk : k ≠ indexKey) :
    lookupKey (enrichIndex cfg p) k = lookupKey p k := by
  unfold enrichIndex
  split_ifs <;>
    simp [lookupKey_dictSet_ne _ indexKey k _ hk]

/-- The host block never touches a key other than `host`. -/
theorem lookupKey_enrichHost_ne (cfg : Config) (p : Event) (k : Str)
    (hk : k ≠ hostKey) :
    lookupKey (enrichHost cfg p) k = lookupKey p k := by
  unfold enrichHost
  split_ifs <;>
    simp [lookupKey_dictSet_ne _ hostKey k _ hk]

/-- The host block never adds or removes a key other than `host`. -/
theorem hasKey_enrichHost_ne (cfg : Config) (p : Event) (k : Str)
    (hk : k ≠ hostKey) :
    hasKey (enrichHost cfg p) k = hasKey p k := by
  unfold enrichHost
  split_ifs <;>
    simp [hasKey_dictSet_ne _ hostKey k _ hk]

/-- The index block never adds or removes a key other than `index`. -/
theorem hasKey_enrichIndex_ne (cfg : Config) (p : Event) (k : Str)
    (hk : k ≠ indexKey) :
    hasKey (enrichIndex cfg p) k = hasKey p k := by
  unfold enrichIndex
  split_ifs <;>
    simp [hasKey_dictSet_ne _ indexKey k _ hk]

/-- A payload lacking `host` gets the configured default host. -/
theorem lookup_enrich_host (cfg : Config) (now : Nat) (payload : Event)
    (et : Str) (h : hasKey payload hostKey = false) :
    lookupKey (enrich cfg now payload et) hostKey = some (.str cfg.host) := by
  unfold enrich
  rw [lookupKey_enrichTime_ne _ _ _ _ (by decide),
    lookupKey_enrichIndex_ne _ _ _ (by decide)]
  unfold enrichHost
  rw [if_neg (by simp [h])]
  exact lookupKey_dictSet_self payload hostKey _

/-- A payload lacking `index`, with an index configured, gets the
configured index. -/
theorem lookup_enrich_index (cfg : Config) (now : Nat) (payload : Event)
    (et : Str) (hidx : cfg.index ≠ [])
    (h : hasKey payload indexKey = false) :
    lookupKey (enrich cfg now payload et) indexKey
      = some (.str cfg.index) := by
  unfold enrich
  rw [lookupKey_enrichTime_ne _ _ _ _ (by decide)]
  unfold enrichIndex
  rw [if_pos ⟨by simp [hasKey_enrichHost_ne cfg payload indexKey
    (by decide), h], hidx⟩]
  exact lookupKey_dictSet_self _ indexKey _

/-- An explicit `eventtime` always sets the `time` field. -/
theorem lookup_enrich_time_explicit (cfg : Config) (now : Nat)
    (payload : Event) (et : Str) (h : et ≠ []) :
    lookupKey (enrich cfg now payload et) timeKey = some (.str et) := by
  unfold enrich enrichTime
  rw [if_pos h]
  exact lookupKey_dictSet_self _ timeKey _

/-- Without an explicit time, a payload lacking `time` gets the current
epoch seconds as a decimal string. -/
theorem lookup_enrich_time_default (cfg : Config) (now : Nat)
    (payload : Event) (h : hasKey payload timeKey = false) :
    lookupKey (enrich cfg now payload []) timeKey
      = some (.str (natToChars now)) := by
  unfold enrich enrichTime
  rw [if_neg (by simp)]
  rw [if_neg (by
    simp [hasKey_enrichIndex_ne cfg _ timeKey (by decide),
      hasKey_enrichHost_ne cfg payload timeKey (by decide), h])]
  exact lookupKey_dictSet_self _ timeKey _

/-- Without an explicit time, a payload that already has `time` keeps
its original value. -/
theorem lookup_enrich_time_kept (cfg : Config) (now : Nat)
    (payload : Event) (v : Val) (h : lookupKey payload timeKey = some v) :
    lookupKey (enrich cfg now payload []) timeKey = some v := by
  unfold enrich enrichTime
  rw [if_neg (by simp)]
  have hl : lookupKey (enrichIndex cfg (enrichHost cfg payload)) timeKey
      = some v := by
    rw [lookupKey_enrichIndex_ne _ _ _ (by decide),
      lookupKey_enrichHost_ne _ _ _ (by decide)]
    exact h
  rw [if_pos (hasKey_of_lookupKey _ _ _ hl)]
  exact hl

/-! ## The injected time is a digit string -/

/-- A single decimal digit character. -/
theorem digit_char_isDigit (m : Nat) (h : m < 10) :
    (Char.ofNat (48 + m)).isDigit = true := by
  interval_cases m <;> decide

/-- All characters produced by the digit loop are digits. -/
theorem natToCharsCore_digits :
    ∀ (fuel n : Nat) (acc : List Char),
    (∀ c ∈ acc, c.isDigit = true) →
    ∀ c ∈ natToCharsCore fuel n acc, c.isDigit = true
  | 0, n, acc, hacc => hacc
  | fuel + 1, n, acc, hacc => by
    have hd : (Char.ofNat (48 + n % 10)).isDigit = true :=
      digit_char_isDigit (n % 10) (Nat.mod_lt n (by norm_num))
    unfold natToCharsCore
    split_ifs with h
    · intro c hc
      rcases List.mem_cons.mp hc with rfl | hc
      · exact hd
      · exact hacc c hc
    · exact natToCharsCore_digits fuel (n / 10) _ (fun c hc => by
        rcases List.mem_cons.mp hc with rfl | hc
        · exact hd
        · exact hacc c hc)

/-- The injected default time value is a numeric (all-digits) string. -/
theorem natToChars_digits (n : Nat) :
    ∀ c ∈ natToChars n, c.isDigit = true :=
  natToCharsCore_digits (n + 1) n [] (by simp)

/-! ## Framing lemmas: no newline ever occurs inside a serialized event -/

/-- Escaping never emits a newline. -/
theorem escapeChar_no_newline (c : Char) : '\n' ∉ escapeChar c := by
  unfold escapeChar
  split_ifs with h1 h2 h3 h4 h5
  · decide
  · decide
  · decide
  · decide
  · decide
  · simp only [List.mem_singleton]
    exact fun hc => h3 hc.symm

/-- A fully escaped string contains no newline. -/
theorem escapeStr_no_newline (s : Str) : '\n' ∉ escapeStr s := by
  induction s with
  | nil => simp [escapeStr]
  | cons c cs ih =>
      simp only [escapeStr, List.mem_append]
      rintro (h | h)
      · exact escapeChar_no_newline c h
      · exact ih h

/-- A quoted string literal contains no newline. -/
theorem quoteStr_no_newline (s : Str) : '\n' ∉ quoteStr s := by
  intro h
  rcases List.mem_cons.mp h with h | h
  · exact absurd h (by decide)
  · rcases List.mem_append.mp h with h | h
    · exact escapeStr_no_newline s h
    · exact absurd h (by decide)

/-- A serialized pair contains no newline. -/
theorem serializePair_no_newline (p : Str × Val) (out : Str)
    (h : serializePair p = some out) : '\n' ∉ out := by
  cases hv : p.2 with
  | bad => simp [serializePair, hv] at h
  | str v =>
      simp only [serializePair, hv, Option.some.injEq] at h
      subst h
      intro hmem
      rcases List.mem_append.mp hmem with h | h
      · exact quoteStr_no_newline _ h
      · rcases List.mem_cons.mp h with h | h
        · exact absurd h (by decide)
        · rcases List.mem_cons.mp h with h | h
          · exact absurd h (by decide)
          · exact quoteStr_no_newline _ h

/-- A serialized pair list contains no newline. -/
theorem serializePairs_no_newline :
    ∀ (e : Event) (out : Str), serializePairs e = some out → '\n' ∉ out
  | [], out, h => by
      simp only [serializePairs, Option.some.injEq] at h
      subst h
      simp
  | [p], out, h => serializePair_no_newline p out h
  | p :: q :: ps, out, h => by
      rw [serializePairs] at h
      cases ho : serializePair p with
      | none => rw [ho] at h; simp at h
      | some o =>
          cases hr : serializePairs (q :: ps) with
          | none => rw [ho, hr] at h; simp at h
          | some rb =>
              rw [ho, hr] at h
              simp at h
              subst h
              intro hmem
              rcases List.mem_append.mp hmem with h | h
              · exact serializePair_no_newline p o ho h
              · rcases List.mem_cons.mp h with h | h
                · exact absurd h (by decide)
                · rcases List.mem_cons.mp h with h | h
                  · exact absurd h (by decide)
                  · exact serializePairs_no_newline (q :: ps) rb hr h

/-- A serialized event contains no newline. -/
theorem serializeEvent_no_newline (e : Event) (out : Str)
    (h : serializeEvent e = some out) : '\n' ∉ out := by
  unfold serializeEvent at h
  cases hp : serializePairs e with
  | none => rw [hp] at h; simp at h
  | some body =>
      rw [hp] at h
      simp at h
      subst h
      intro hmem
      rcases List.mem_cons.mp hmem with h | h
      · exact absurd h (by decide)
      · rcases List.mem_append.mp h with h | h
        · exact serializePairs_no_newline e body hp h
        · exact absurd h (by decide)

/-! ## Split/join lemmas -/

/-- Splitting never yields the empty list of fragments. -/
theorem splitNl_ne_nil (s : Str) : splitNl s ≠ [] := by
  cases s with
  | nil => simp [splitNl]
  | cons c cs =>
      unfold splitNl
      split_ifs
      · simp
      · cases splitNl cs <;> simp

/-- A newline-free string splits to itself alone. -/
theorem splitNl_of_no_newline (s : Str) (h : '\n' ∉ s) :
    splitNl s = [s] := by
  induction s with
  | nil => rfl
  | cons c cs ih =>
      simp only [List.mem_cons] at h
      push_neg at h
      unfold splitNl
      rw [if_neg (fun hc => h.1 hc.symm)]
      rw [ih h.2]

/-- Splitting a newline-free prefix followed by a newline peels off the
prefix. -/
theorem splitNl_append (s t : Str) (h : '\n' ∉ s) :
    splitNl (s ++ '\n' :: t) = s :: splitNl t := by
  induction s with
  | nil => simp [splitNl]
  | cons c cs ih =>
      simp only [List.mem_cons] at h
      push_neg at h
      simp only [List.cons_append]
      rw [splitNl]
      rw [if_neg (fun hc => h.1 hc.symm)]
      rw [ih h.2]

/-- Splitting the newline-joined body recovers exactly the batch, when
no fragment contains a newline. -/
theorem splitNl_joinBody :
    ∀ (l : List Str), l ≠ [] → (∀ s ∈ l, '\n' ∉ s) →
    splitNl (joinBody l) = l
  | [], hne, _ => absurd rfl hne
  | [s], _, h => by
      rw [joinBody]
      exact splitNl_of_no_newline s (h s (by simp))
  | s :: s' :: ss, _, h => by
      rw [show joinBody (s :: s' :: ss) = s ++ '\n' :: joinBody (s' :: ss)
        from rfl]
      rw [splitNl_append s _ (h s (by simp))]
      rw [splitNl_joinBody (s' :: ss) (by simp)
        (fun x hx => h x (List.mem_cons_of_mem s hx))]

/-! ## Parser round-trip lemmas -/

/-- A closing quote ends the string body at once. -/
theorem parseStringBody_closequote (cs : Str) :
    parseStringBody ('"' :: cs) = some ([], cs) := by
  rw [parseStringBody.eq_def]
  simp

/-- A backslash escape contributes its decoded character. -/
theorem parseStringBody_esc (e d : Char) (cs : Str)
    (hd : unescapeChar e = some d) :
    parseStringBody ('\\' :: e :: cs) =
      (parseStringBody cs).bind (fun p => some (d :: p.1, p.2)) := by
  rw [parseStringBody.eq_def]
  simp [hd]

/-- An ordinary character contributes itself. -/
theorem parseStringBody_other (c : Char) (cs : Str) (h1 : ¬ c = '"')
    (h2 : ¬ c = '\\') :
    parseStringBody (c :: cs) =
      (parseStringBody cs).bind (fun p => some (c :: p.1, p.2)) := by
  rw [parseStringBody.eq_def]
  simp [h1, h2]

/-- Parsing an escaped string body up to its closing quote recovers the
original string and the remaining input. -/
theorem parseStringBody_escape (s rest : Str) :
    parseStringBody (escapeStr s ++ '"' :: rest) = some (s, rest) := by
  induction s with
  | nil => exact parseStringBody_closequote rest
  | cons c cs ih =>
      simp only [escapeStr, List.append_assoc]
      unfold escapeChar
      split_ifs with h1 h2 h3 h4 h5
      · subst h1
        rw [List.cons_append, List.cons_append, List.nil_append]
        rw [parseStringBody_esc _ _ _ (show unescapeChar '\\'
          = some '\\' from rfl)]
        rw [ih]
        rfl
      · subst h2
        rw [List.cons_append, List.cons_append, List.nil_append]
        rw [parseStringBody_esc _ _ _ (show unescapeChar '"'
          = some '"' from rfl)]
        rw [ih]
        rfl
      · subst h3
        rw [List.cons_append, List.cons_append, List.nil_append]
        rw [parseStringBody_esc _ _ _ (show unescapeChar 'n'
          = some '\n' from rfl)]
        rw [ih]
        rfl
      · subst h4
        rw [List.cons_append, List.cons_append, List.nil_append]
        rw [parseStringBody_esc _ _ _ (show unescapeChar 't'
          = some '\t' from rfl)]
        rw [ih]
        rfl
      · subst h5
        rw [List.cons_append, List.cons_append, List.nil_append]
        rw [parseStringBody_esc _ _ _ (show unescapeChar 'r'
          = some '\x0d' from rfl)]
        rw [ih]
        rfl
      · rw [List.cons_append, List.nil_append]
        rw [parseStringBody_other c _ h2 h1]
        rw [ih]
        rfl

/-- Parsing a quoted literal recovers the original string. -/
theorem parseQuoted_quote (s rest : Str) :
    parseQuoted (quoteStr s ++ rest) = some (s, rest) := by
  simp only [quoteStr, List.cons_append, List.append_assoc,
    List.singleton_append]
  rw [parseQuoted]
  exact parseStringBody_escape s rest

/-- Parsing a serialized pair recovers the original pair. -/
theorem parsePair_serialize (p : Str × Val) (out rest : Str)
    (h : serializePair p = some out) :
    parsePair (out ++ rest) = some (p, rest) := by
  obtain ⟨k, v⟩ := p
  cases hv : v with
  | bad => simp [serializePair, hv] at h
  | str w =>
      simp only [serializePair, hv, Option.some.injEq] at h
      subst h
      rw [parsePair]
      rw [show (quoteStr k ++ ':' :: ' ' :: quoteStr w) ++ rest
          = quoteStr k ++ (':' :: ' ' :: (quoteStr w ++ rest)) by simp]
      rw [parseQuoted_quote k (':' :: ' ' :: (quoteStr w ++ rest))]
      show (parseQuoted (quoteStr w ++ rest)).bind (fun x =>
          some ((k, Val.str x.1), x.2)) = some ((k, Val.str w), rest)
      rw [parseQuoted_quote w rest]
      rfl

/-- A serialized pair is never the empty string. -/
theorem serializePair_length_pos (p : Str × Val) (out : Str)
    (h : serializePair p = some out) : 0 < out.length := by
  obtain ⟨k, v⟩ := p
  cases hv : v with
  | bad => simp [serializePair, hv] at h
  | str w =>
      simp only [serializePair, hv, Option.some.injEq] at h
      subst h
      simp [quoteStr]

/-- A serialized pair list is at least as long as the pair list. -/
theorem serializePairs_length :
    ∀ (e : Event) (body : Str), serializePairs e = some body →
    e.length ≤ body.length
  | [], body, h => by
      simp only [serializePairs, Option.some.injEq] at h
      subst h
      simp
  | [p], body, h => by
      have := serializePair_length_pos p body h
      simpa using this
  | p :: q :: ps, body, h => by
      rw [serializePairs] at h
      cases ho : serializePair p with
      | none => rw [ho] at h; simp at h
      | some o =>
          cases hr : serializePairs (q :: ps) with
          | none => rw [ho, hr] at h; simp at h
          | some rb =>
              rw [ho, hr] at h
              simp at h
              subst h
              have h1 := serializePair_length_pos p o ho
              have h2 := serializePairs_length (q :: ps) rb hr
              simp only [List.length_cons, List.length_append] at h2 ⊢
              omega

/-- Parsing a serialized nonempty pair list up to the closing brace
recovers the original pairs. -/
theorem parsePairs_serialize :
    ∀ (e : Event) (body : Str) (fuel : Nat) (rest : Str),
    serializePairs e = some body → e ≠ [] → e.length ≤ fuel →
    parsePairs fuel (body ++ '}' :: rest) = some (e, rest)
  | [], _, _, _, _, hne, _ => absurd rfl hne
  | [p], body, fuel, rest, h, _, hf => by
      match fuel, hf with
      | fuel + 1, _ =>
        rw [show serializePairs [p] = serializePair p from rfl] at h
        rw [parsePairs]
        rw [parsePair_serialize p body ('}' :: rest) h]
        rfl
  | p :: q :: ps, body, fuel, rest, h, _, hf => by
      match fuel, hf with
      | fuel + 1, hf =>
        rw [serializePairs] at h
        cases ho : serializePair p with
        | none => rw [ho] at h; simp at h
        | some o =>
            cases hr : serializePairs (q :: ps) with
            | none => rw [ho, hr] at h; simp at h
            | some rb =>
                rw [ho, hr] at h
                simp at h
                subst h
                have hf2 : (q :: ps).length ≤ fuel := by
                  simp only [List.length_cons] at hf ⊢
                  omega
                have hrec := parsePairs_serialize (q :: ps) rb fuel rest
                  hr (by simp) hf2
                rw [parsePairs]
                rw [show (o ++ ',' :: ' ' :: rb) ++ '}' :: rest
                    = o ++ ',' :: ' ' :: (rb ++ '}' :: rest) by simp]
                rw [parsePair_serialize p o
                  (',' :: ' ' :: (rb ++ '}' :: rest)) ho]
                show (parsePairs fuel (rb ++ '}' :: rest)).bind (fun x =>
                    some ((p :: x.1 : Event), x.2))
                  = some (p :: q :: ps, rest)
                rw [hrec]
                rfl
  termination_by e => e.length

/-- Parsing a serialized event recovers the original event. -/
theorem parseEvent_serialize (e : Event) (s : Str)
    (h : serializeEvent e = some s) : parseEvent s = some e := by
  unfold serializeEvent at h
  cases hp : serializePairs e with
  | none => rw [hp] at h; simp at h
  | some body =>
      rw [hp] at h
      simp at h
      subst h
      cases e with
      | nil =>
          have hb : body = [] := by
            rw [show serializePairs [] = some [] from rfl] at hp
            exact (Option.some.inj hp).symm
          subst hb
          rfl
      | cons p ps =>
          have hlen := serializePairs_length (p :: ps) body hp
          simp only [List.length_cons] at hlen
          rw [parseEvent]
          rw [if_neg (by
            intro hc
            have hlc := congrArg List.length hc
            simp only [List.length_append, List.length_cons,
              List.length_nil] at hlc
            omega)]
          have hpp := parsePairs_serialize (p :: ps) body
            (body ++ ['}']).length [] hp (by simp)
            (by
              simp only [List.length_append, List.length_cons,
                List.length_nil]
              omega)
          rw [show (body ++ ['}'] : Str) = body ++ '}' :: [] from rfl]
          rw [hpp]

/-! ## Concrete sample data for witnesses -/

/-- A sample configuration with the default retry settings. -/
def sampleConfig : Config :=
  { host := ['h'], index := ['i'], maxByteLength := 100,
    max_retries := 3, backoff_factor := 1 }

/-- A sample nonempty batch state. -/
def sampleState : State :=
  { batchEvents := [['e', 'v']], currentByteLength := 2,
    retry_count := 0, send_count := 0, error_count := 0 }

/-- A sample empty batch state. -/
def emptyState : State :=
  { batchEvents := [], currentByteLength := 0,
    retry_count := 0, send_count := 0, error_count := 0 }

/-- A configuration whose byte budget is exceeded by any event. -/
def oversizeConfig : Config :=
  { host := ['h'], index := [], maxByteLength := 0,
    max_retries := 3, backoff_factor := 1 }

/-! ## Claim theorems -/

/-- C9: if the batch is empty, `flushBatch` performs no network activity
(zero attempts), does not modify the metrics counters or the batch state,
and returns immediately with a no-op result. -/
theorem spec_C9 (cfg : Config) (oracle : Nat → AttemptResult) (s : State)
    (h : s.batchEvents = []) :
    flushBatch cfg oracle s =
      { state := s, outcome := .noop, waits := [], attempts := 0 } :=
  flushBatch_empty cfg oracle s h

/-- Witness for C9 at a concrete empty-batch state. -/
theorem spec_C9_witness :
    flushBatch sampleConfig (fun _ => .status 200) emptyState =
      { state := emptyState, outcome := .noop, waits := [],
        attempts := 0 } :=
  spec_C9 sampleConfig (fun _ => .status 200) emptyState rfl

/-- C7: on a nonempty batch, a first attempt observing a non-200 status
outside the retryable set performs zero backoff waits, increments
`error_count` by exactly one, leaves `retry_count` (and `send_count`)
unchanged, clears the batch, and returns failure immediately after a
single attempt, without raising. -/
theorem spec_C7 (cfg : Config) (oracle : Nat → AttemptResult) (s : State)
    (code : Nat) (hne : s.batchEvents ≠ [])
    (h0 : oracle 0 = .status code) (h200 : code ≠ 200)
    (hnr : code ∉ DEFAULT_RETRY_STATUS_CODES) :
    flushBatch cfg oracle s =
      { state := { s with
          batchEvents := [],
          currentByteLength := 0,
          error_count := s.error_count + 1 },
        outcome := .failure code, waits := [], attempts := 1 } := by
  rw [flushBatch_nonempty cfg oracle s hne]
  rw [flushLoop_failure_first cfg oracle s.batchEvents.length
    cfg.max_retries 0 s [] 0 code h0 h200 hnr]
  simp [clearBatch]

/-- Witness for C7: a single 400 response. -/
theorem spec_C7_witness :
    flushBatch sampleConfig (fun _ => .status 400) sampleState =
      { state := { sampleState with
          batchEvents := [],
          currentByteLength := 0,
          error_count := sampleState.error_count + 1 },
        outcome := .failure 400, waits := [], attempts := 1 } :=
  spec_C7 sampleConfig (fun _ => .status 400) sampleState 400
    (by decide) rfl (by decide) (by decide)

/-- C1 (counterexample): with `maxRetries = 3` and all four attempts
observing 503, `retry_count` increases by 4, not by 3 as the claim
states — the conjunction claimed (retry +3, error +1, batch empty) is
false at this concrete input. -/
theorem spec_C1_counterexample :
    ¬ ((flushBatch sampleConfig (fun _ => .status 503)
          sampleState).state.retry_count = sampleState.retry_count + 3 ∧
       (flushBatch sampleConfig (fun _ => .status 503)
          sampleState).state.error_count = sampleState.error_count + 1 ∧
       (flushBatch sampleConfig (fun _ => .status 503)
          sampleState).state.batchEvents = []) := by
  decide

/-- C1 (amended): with `maxRetries = 3` and all four attempts observing
a retryable 503, `retry_count` increases by exactly 4 — one per attempt,
including the last, which performs a fourth backoff wait before the
exhaustion handling — `error_count` increases by exactly 1, and the
batch ends empty with its byte counter at 0. -/
theorem spec_C1 (cfg : Config) (oracle : Nat → AttemptResult) (s : State)
    (hmr : cfg.max_retries = 3) (hne : s.batchEvents ≠ [])
    (h503 : ∀ i, i ≤ 3 → oracle i = .status 503) :
    (flushBatch cfg oracle s).state.retry_count = s.retry_count + 4 ∧
    (flushBatch cfg oracle s).state.error_count = s.error_count + 1 ∧
    (flushBatch cfg oracle s).state.batchEvents = [] ∧
    (flushBatch cfg oracle s).state.currentByteLength = 0 ∧
    (flushBatch cfg oracle s).outcome = .exhausted ∧
    (flushBatch cfg oracle s).waits =
      [waitTime cfg 0, waitTime cfg 1, waitTime cfg 2, waitTime cfg 3] := by
  rw [flushBatch_nonempty cfg oracle s hne, hmr]
  rw [flushLoop_all_retry cfg oracle s.batchEvents.length (3 + 1) 0 s [] 0
    (fun i hi => by
      rw [Nat.zero_add, h503 i (by omega)]
      decide)]
  have hr : List.range (3 + 1) = [0, 1, 2, 3] := rfl
  simp [clearBatch, hr]

/-- Witness for C1 (amended) at a concrete all-503 run. -/
theorem spec_C1_witness :
    (flushBatch sampleConfig (fun _ => .status 503)
        sampleState).state.retry_count = sampleState.retry_count + 4 ∧
    (flushBatch sampleConfig (fun _ => .status 503)
        sampleState).state.error_count = sampleState.error_count + 1 ∧
    (flushBatch sampleConfig (fun _ => .status 503)
        sampleState).state.batchEvents = [] ∧
    (flushBatch sampleConfig (fun _ => .status 503)
        sampleState).state.currentByteLength = 0 ∧
    (flushBatch sampleConfig (fun _ => .status 503)
        sampleState).outcome = .exhausted ∧
    (flushBatch sampleConfig (fun _ => .status 503)
        sampleState).waits =
      [waitTime sampleConfig 0, waitTime sampleConfig 1,
       waitTime sampleConfig 2, waitTime sampleConfig 3] :=
  spec_C1 sampleConfig (fun _ => .status 503) sampleState rfl
    (by decide) (fun i _ => rfl)

/-- C2: (a) on a nonempty batch, an attempt observing HTTP 200
increments `send_count` by the number of events in the batch, clears the
batch, and returns success with no further attempts; (b) with
`maxRetries = 3`, `backoffFactor = 1.0`, and a server returning 503,
503, 503, 200 on successive attempts, exactly 3 backoff waits occur —
1s, 2s, 4s in that order — `retry_count` increases by 3, `send_count`
increases by the event count, and the batch ends empty. -/
theorem spec_C2 :
    (∀ (cfg : Config) (oracle : Nat → AttemptResult) (s : State),
      s.batchEvents ≠ [] → oracle 0 = .status 200 →
      flushBatch cfg oracle s =
        { state := { s with
            batchEvents := [],
            currentByteLength := 0,
            send_count := s.send_count + s.batchEvents.length },
          outcome := .success 200, waits := [], attempts := 1 }) ∧
    (∀ (cfg : Config) (oracle : Nat → AttemptResult) (s : State),
      cfg.max_retries = 3 → cfg.backoff_factor = 1 →
      s.batchEvents ≠ [] →
      oracle 0 = .status 503 → oracle 1 = .status 503 →
      oracle 2 = .status 503 → oracle 3 = .status 200 →
      (flushBatch cfg oracle s).outcome = .success 200 ∧
      (flushBatch cfg oracle s).waits = [1, 2, 4] ∧
      (flushBatch cfg oracle s).attempts = 4 ∧
      (flushBatch cfg oracle s).state.retry_count = s.retry_count + 3 ∧
      (flushBatch cfg oracle s).state.send_count
        = s.send_count + s.batchEvents.length ∧
      (flushBatch cfg oracle s).state.error_count = s.error_count ∧
      (flushBatch cfg oracle s).state.batchEvents = [] ∧
      (flushBatch cfg oracle s).state.currentByteLength = 0) := by
  constructor
  · intro cfg oracle s hne h200
    rw [flushBatch_nonempty cfg oracle s hne]
    rw [flushLoop_success_at cfg oracle s.batchEvents.length 0
      (cfg.max_retries + 1) 0 s [] 0 (by omega)
      (fun i hi => absurd hi (by omega)) (by simpa using h200)]
    simp [clearBatch]
  · intro cfg oracle s hmr hbf hne h0 h1 h2 h3
    rw [flushBatch_nonempty cfg oracle s hne, hmr]
    rw [flushLoop_success_at cfg oracle s.batchEvents.length 3
      (3 + 1) 0 s [] 0 (by omega)
      (fun i hi => by
        interval_cases i
        · rw [Nat.zero_add, h0]; decide
        · rw [Nat.zero_add, h1]; decide
        · rw [Nat.zero_add, h2]; decide)
      (by simpa using h3)]
    have hr : List.range 3 = [0, 1, 2] := rfl
    simp [clearBatch, hr, waitTime, hbf]
    norm_num

/-- Witness for C2: both conjuncts at concrete runs. -/
theorem spec_C2_witness :
    (flushBatch sampleConfig (fun _ => .status 200) sampleState =
      { state := { sampleState with
          batchEvents := [],
          currentByteLength := 0,
          send_count := sampleState.send_count +
            sampleState.batchEvents.length },
        outcome := .success 200, waits := [], attempts := 1 }) ∧
    (flushBatch sampleConfig
        (fun a => if a < 3 then .status 503 else .status 200)
        sampleState).waits = [1, 2, 4] :=
  ⟨spec_C2.1 sampleConfig (fun _ => .status 200) sampleState
      (by decide) rfl,
   (spec_C2.2 sampleConfig
      (fun a => if a < 3 then .status 503 else .status 200)
      sampleState rfl rfl (by decide) rfl rfl rfl rfl).2.1⟩

/-- C4: every terminal outcome of `flushBatch` on a nonempty batch
leaves the batch empty with its byte counter at 0, never partially
cleared; when the outcome is a propagated unexpected failure,
`error_count` has been incremented by exactly one; and an unexpected
failure on the first attempt propagates immediately — one attempt, no
backoff wait, batch discarded. -/
theorem spec_C4 (cfg : Config) (oracle : Nat → AttemptResult) (s : State)
    (hne : s.batchEvents ≠ []) :
    (flushBatch cfg oracle s).state.batchEvents = [] ∧
    (flushBatch cfg oracle s).state.currentByteLength = 0 ∧
    ((flushBatch cfg oracle s).outcome = .raised →
      (flushBatch cfg oracle s).state.error_count = s.error_count + 1) ∧
    (oracle 0 = .unexpected →
      flushBatch cfg oracle s =
        { state := { s with
            batchEvents := [],
            currentByteLength := 0,
            error_count := s.error_count + 1 },
          outcome := .raised, waits := [], attempts := 1 }) := by
  rw [flushBatch_nonempty cfg oracle s hne]
  refine ⟨(flushLoop_clears cfg oracle _ _ _ _ _ _).1,
    (flushLoop_clears cfg oracle _ _ _ _ _ _).2,
    flushLoop_raised_error cfg oracle _ _ _ _ _ _, ?_⟩
  intro hu
  rw [flushLoop_unexpected_first cfg oracle s.batchEvents.length
    cfg.max_retries 0 s [] 0 hu]
  simp [clearBatch]

/-- Witness for C4 at a concrete unexpected failure. -/
theorem spec_C4_witness :
    (flushBatch sampleConfig (fun _ => .unexpected)
        sampleState).state.batchEvents = [] ∧
    flushBatch sampleConfig (fun _ => .unexpected) sampleState =
      { state := { sampleState with
          batchEvents := [],
          currentByteLength := 0,
          error_count := sampleState.error_count + 1 },
        outcome := .raised, waits := [], attempts := 1 } :=
  ⟨(spec_C4 sampleConfig (fun _ => .unexpected) sampleState
      (by decide)).1,
   (spec_C4 sampleConfig (fun _ => .unexpected) sampleState
      (by decide)).2.2.2 rfl⟩

/-- C3: after every `sendEvent` and after every `flushBatch`, the batch's
byte counter equals the sum of the lengths of the serialized event
strings currently held (0 when the batch is empty): the invariant is
preserved by every operation. -/
theorem spec_C3 (cfg : Config) (oracle : Nat → AttemptResult) (now : Nat)
    (payload : Event) (et : Str) (s : State) (h : byteInvariant s) :
    byteInvariant (sendEvent cfg oracle now payload et s).state ∧
    byteInvariant (flushBatch cfg oracle s).state := by
  refine ⟨?_, flushBatch_byteInvariant cfg oracle s h⟩
  unfold sendEvent
  cases hser : serializeEvent (enrich cfg now payload et) with
  | none => exact h
  | some pstr =>
      dsimp only
      split_ifs with hsz hr
      · exact flushBatch_byteInvariant cfg oracle s h
      · have hf := flushBatch_byteInvariant cfg oracle s h
        unfold byteInvariant at hf ⊢
        simp [hf]
      · unfold byteInvariant at h ⊢
        simp [h]

/-- Witness for C3 at a concrete state satisfying the invariant. -/
theorem spec_C3_witness :
    byteInvariant (sendEvent sampleConfig (fun _ => .status 200) 5
      [] [] sampleState).state ∧
    byteInvariant (flushBatch sampleConfig (fun _ => .status 200)
      sampleState).state :=
  spec_C3 sampleConfig (fun _ => .status 200) 5 [] [] sampleState rfl

/-- C5: when the held bytes plus the new event's serialized length
exceed `maxBytes`, `sendEvent` triggers exactly one flush of the held
batch before appending, so the batch afterwards contains only the new
event — even when that event's own length exceeds `maxBytes` (it is
never dropped or rejected). -/
theorem spec_C5 (cfg : Config) (oracle : Nat → AttemptResult) (now : Nat)
    (payload : Event) (et : Str) (s : State) (pstr : Str)
    (h : byteInvariant s)
    (hser : serializeEvent (enrich cfg now payload et) = some pstr)
    (hsz : s.currentByteLength + pstr.length > cfg.maxByteLength)
    (hnr : (flushBatch cfg oracle s).outcome ≠ .raised) :
    (sendEvent cfg oracle now payload et s).status = .ok ∧
    (sendEvent cfg oracle now payload et s).flushCount = 1 ∧
    (sendEvent cfg oracle now payload et s).state.batchEvents = [pstr] ∧
    (sendEvent cfg oracle now payload et s).state.currentByteLength
      = pstr.length := by
  unfold sendEvent
  rw [hser]
  dsimp only
  rw [if_pos hsz, if_neg hnr]
  refine ⟨rfl, rfl, ?_, ?_⟩
  · simp [flushBatch_batch_nil]
  · simp [flushBatch_byte_zero cfg oracle s h]

/-- Witness for C5: an event longer than the whole byte budget is still
appended after the (no-op, empty-batch) flush. -/
theorem spec_C5_witness :
    (sendEvent oversizeConfig (fun _ => .status 200) 0
      [(hostKey, .str ['h']), (timeKey, .str ['1'])] []
      emptyState).status = .ok ∧
    (sendEvent oversizeConfig (fun _ => .status 200) 0
      [(hostKey, .str ['h']), (timeKey, .str ['1'])] []
      emptyState).flushCount = 1 :=
  ⟨(spec_C5 oversizeConfig (fun _ => .status 200) 0
      [(hostKey, .str ['h']), (timeKey, .str ['1'])] [] emptyState _
      rfl rfl (by decide) (by decide)).1,
   (spec_C5 oversizeConfig (fun _ => .status 200) 0
      [(hostKey, .str ['h']), (timeKey, .str ['1'])] [] emptyState _
      rfl rfl (by decide) (by decide)).2.1⟩

/-- C8: enrichment injects the default host when `host` is absent, the
configured index when one is configured and `index` is absent, the
explicit time when given, and otherwise — when `time` is absent — the
current epoch seconds as a numeric (all-digits) string; an event that
already has `time` keeps its value when no explicit time is passed; and
all of this happens before serialization and before size accounting
(the appended string and the byte charge are those of the enriched
event). -/
theorem spec_C8 (cfg : Config) (now : Nat) (payload : Event) (et : Str) :
    (hasKey payload hostKey = false →
      lookupKey (enrich cfg now payload et) hostKey
        = some (.str cfg.host)) ∧
    (cfg.index ≠ [] → hasKey payload indexKey = false →
      lookupKey (enrich cfg now payload et) indexKey
        = some (.str cfg.index)) ∧
    (et ≠ [] →
      lookupKey (enrich cfg now payload et) timeKey = some (.str et)) ∧
    (et = [] → hasKey payload timeKey = false →
      lookupKey (enrich cfg now payload et) timeKey
        = some (.str (natToChars now)) ∧
      ∀ c ∈ natToChars now, c.isDigit = true) ∧
    (et = [] → ∀ v, lookupKey payload timeKey = some v →
      lookupKey (enrich cfg now payload et) timeKey = some v) ∧
    (∀ (oracle : Nat → AttemptResult) (s : State) (pstr : Str),
      serializeEvent (enrich cfg now payload et) = some pstr →
      ¬ s.currentByteLength + pstr.length > cfg.maxByteLength →
      (sendEvent cfg oracle now payload et s).state.batchEvents
        = s.batchEvents ++ [pstr] ∧
      (sendEvent cfg oracle now payload et s).state.currentByteLength
        = s.currentByteLength + pstr.length) := by
  refine ⟨lookup_enrich_host cfg now payload et,
    lookup_enrich_index cfg now payload et,
    lookup_enrich_time_explicit cfg now payload et, ?_, ?_, ?_⟩
  · rintro rfl ht
    exact ⟨lookup_enrich_time_default cfg now payload ht,
      natToChars_digits now⟩
  · rintro rfl v hv
    exact lookup_enrich_time_kept cfg now payload v hv
  · intro oracle s pstr hser hsz
    unfold sendEvent
    rw [hser]
    dsimp only
    rw [if_neg hsz]
    exact ⟨rfl, rfl⟩

/-- Witness for C8 at concrete payloads exercising each enrichment
branch. -/
theorem spec_C8_witness :
    lookupKey (enrich sampleConfig 7 [] []) hostKey
      = some (.str sampleConfig.host) ∧
    lookupKey (enrich sampleConfig 7 [] []) indexKey
      = some (.str sampleConfig.index) ∧
    lookupKey (enrich sampleConfig 7 [] ['9']) timeKey
      = some (.str ['9']) ∧
    lookupKey (enrich sampleConfig 7 [] []) timeKey
      = some (.str (natToChars 7)) ∧
    lookupKey (enrich sampleConfig 7 [(timeKey, .str ['3'])] []) timeKey
      = some (.str ['3']) ∧
    (sendEvent sampleConfig (fun _ => .status 200) 7 [] []
        emptyState).state.batchEvents
      = emptyState.batchEvents ++
        [(serializeEvent (enrich sampleConfig 7 [] [])).getD []] :=
  ⟨(spec_C8 sampleConfig 7 [] []).1 rfl,
   (spec_C8 sampleConfig 7 [] []).2.1 (by decide) rfl,
   (spec_C8 sampleConfig 7 [] ['9']).2.2.1 (by decide),
   ((spec_C8 sampleConfig 7 [] []).2.2.2.1 rfl rfl).1,
   (spec_C8 sampleConfig 7 [(timeKey, .str ['3'])] []).2.2.2.2.1 rfl
     (Val.str ['3']) rfl,
   ((spec_C8 sampleConfig 7 [] []).2.2.2.2.2 (fun _ => .status 200)
     emptyState _ rfl (by decide)).1⟩

/-- C10: when serialization of the (already mutated) payload fails,
`sendEvent` raises leaving the batch, its byte counter and all metrics
counters unchanged — but the caller's event mapping has already been
enriched in place: default host, configured index and a time value have
been injected into the returned payload. -/
theorem spec_C10 (cfg : Config) (oracle : Nat → AttemptResult) (now : Nat)
    (payload : Event) (et : Str) (s : State)
    (hser : serializeEvent (enrich cfg now payload et) = none) :
    sendEvent cfg oracle now payload et s =
      { state := s, payload := enrich cfg now payload et,
        status := .serializationError, flushCount := 0 } ∧
    (hasKey payload hostKey = false →
      lookupKey (sendEvent cfg oracle now payload et s).payload hostKey
        = some (.str cfg.host)) ∧
    (cfg.index ≠ [] → hasKey payload indexKey = false →
      lookupKey (sendEvent cfg oracle now payload et s).payload indexKey
        = some (.str cfg.index)) ∧
    (et = [] → hasKey payload timeKey = false →
      lookupKey (sendEvent cfg oracle now payload et s).payload timeKey
        = some (.str (natToChars now))) := by
  have h1 : sendEvent cfg oracle now payload et s =
      { state := s, payload := enrich cfg now payload et,
        status := .serializationError, flushCount := 0 } := by
    unfold sendEvent
    rw [hser]
  refine ⟨h1, ?_, ?_, ?_⟩
  · intro hh
    rw [h1]
    exact lookup_enrich_host cfg now payload et hh
  · intro hi hh
    rw [h1]
    exact lookup_enrich_index cfg now payload et hi hh
  · rintro rfl hh
    rw [h1]
    exact lookup_enrich_time_default cfg now payload hh

/-- Witness for C10 at a concrete unserializable payload. -/
theorem spec_C10_witness :
    sendEvent sampleConfig (fun _ => .status 200) 5 [(['x'], .bad)] []
        sampleState =
      { state := sampleState,
        payload := enrich sampleConfig 5 [(['x'], .bad)] [],
        status := .serializationError, flushCount := 0 } ∧
    lookupKey (sendEvent sampleConfig (fun _ => .status 200) 5
        [(['x'], .bad)] [] sampleState).payload hostKey
      = some (.str sampleConfig.host) :=
  ⟨(spec_C10 sampleConfig (fun _ => .status 200) 5 [(['x'], .bad)] []
      sampleState rfl).1,
   (spec_C10 sampleConfig (fun _ => .status 200) 5 [(['x'], .bad)] []
      sampleState rfl).2.1 rfl⟩

/-- Every string of a batch produced by serialization is newline-free. -/
theorem forall₂_no_newline :
    ∀ {es : List Event} {bs : List Str},
    List.Forall₂ (fun e s => serializeEvent e = some s) es bs →
    ∀ s ∈ bs, '\n' ∉ s := by
  intro es bs h
  induction h with
  | nil => simp
  | cons hr _ ih =>
      intro s hs
      rcases List.mem_cons.mp hs with rfl | hs
      · exact serializeEvent_no_newline _ _ hr
      · exact ih s hs

/-- C6: the transmitted request body is the batch's events joined in
insertion order by single newlines with no trailing separator; splitting
it by newline yields exactly the batch's `n` strings, each of which
parses back to the original serialized event (round trip). -/
theorem spec_C6 (st : State) (es : List Event)
    (hne : st.batchEvents ≠ [])
    (hser : List.Forall₂ (fun e s => serializeEvent e = some s) es
      st.batchEvents) :
    requestBody st = joinBody st.batchEvents ∧
    splitNl (requestBody st) = st.batchEvents ∧
    (splitNl (requestBody st)).length = es.length ∧
    List.Forall₂ (fun e s => parseEvent s = some e) es st.batchEvents := by
  have hsplit : splitNl (requestBody st) = st.batchEvents :=
    splitNl_joinBody st.batchEvents hne (forall₂_no_newline hser)
  refine ⟨rfl, hsplit, ?_, ?_⟩
  · rw [hsplit]
    exact hser.length_eq.symm
  · exact hser.imp (fun a b h => parseEvent_serialize a b h)

/-- A two-event batch used by the C6 witness. -/
def roundtripState : State :=
  { batchEvents := [['{', '}'],
      ['{', '"', 'a', '"', ':', ' ', '"', 'b', '"', '}']],
    currentByteLength := 12,
    retry_count := 0, send_count := 0, error_count := 0 }

/-- Witness for C6 on a concrete two-event batch. -/
theorem spec_C6_witness :
    splitNl (requestBody roundtripState) = roundtripState.batchEvents ∧
    (splitNl (requestBody roundtripState)).length = 2 ∧
    List.Forall₂ (fun e s => parseEvent s = some e)
      [[], [(['a'], Val.str ['b'])]] roundtripState.batchEvents :=
  ⟨(spec_C6 roundtripState [[], [(['a'], Val.str ['b'])]] (by decide)
      (List.Forall₂.cons rfl (List.Forall₂.cons rfl
        List.Forall₂.nil))).2.1,
   (spec_C6 roundtripState [[], [(['a'], Val.str ['b'])]] (by decide)
      (List.Forall₂.cons rfl (List.Forall₂.cons rfl
        List.Forall₂.nil))).2.2.1,
   (spec_C6 roundtripState [[], [(['a'], Val.str ['b'])]] (by decide)
      (List.Forall₂.cons rfl (List.Forall₂.cons rfl
        List.Forall₂.nil))).2.2.2⟩

end HEC
